import Mathlib

/-!
Verification of the MoE Router orchestrator (`src/raw-agent-code/moe_router/main.py`).

The development shallowly embeds the router core: the agent registry, the
rule-based and model-based routing strategies, the dispatch engine
(`_send_to_agents` / `_call_agent`), the WebSocket broadcaster
(`_broadcast_update`), and the per-request orchestration (`process_request`,
`get_request_status`).

Modelling conventions:
- Python dicts keyed by strings are embedded as association lists
  `List (String × α)` with Python assignment semantics (`dictInsert`:
  replace in place when the key exists, append otherwise) and first-match
  lookup (`lookupDict`).
- The values of `datetime` timestamps and measured latencies are not
  modelled (real time); what is modelled is their presence in the payloads
  handed to `json.dumps`, which stdlib `json` rejects with `TypeError`
  (`dataSerializable` / `broadcastEvent`), since that decides whether
  `_broadcast_update` raises. Rational numbers stand in for the Python
  floats that appear only as literal constants (0.75, 0.8), which both
  languages represent exactly enough for the equalities proved here.
- The generative-model call of `LLMRouterStrategy.route` is a black box: its
  result is a value of `GenResult` saying whether the call raised, returned
  text that `json.loads` / field extraction / validation rejects (any
  exception inside the `try` block), or produced a usable JSON object with
  the three optional fields the code reads.
- Each HTTP expert call of `_call_agent` is a black box `CallResult`:
  timeout, any other transport/status/body error, or a JSON object body
  with an optional `response` field.
-/

/-- `RequestType` enum of the router (`credit | fraud | esg | general`). -/
inductive RequestType where
  | credit
  | fraud
  | esg
  | general
deriving DecidableEq, Repr

/-- `AgentRequest` model: id, type and content. The `metadata` dict and the
`timestamp` field are omitted: no modelled operation reads them (the
model-based strategy only splices them into the prompt, which is inside the
black-box call). -/
structure AgentRequest where
  id : String
  type : RequestType
  content : String
deriving DecidableEq, Repr

/-- `RoutingDecision` model (without the `timestamp` field, which is
real-time metadata). Confidence is embedded as a rational. -/
structure RoutingDecision where
  request_id : String
  selected_agents : List String
  reasoning : String
  confidence : ℚ
deriving DecidableEq, Repr

/-- The keys of `AGENT_REGISTRY`, in declaration (= registry) order. The
descriptor payloads (name, capabilities, endpoint, model) are not read by any
modelled operation except for membership of the id, so the registry is
embedded as its key list. -/
def AGENT_REGISTRY_keys : List String := ["credit-agent", "fraud-agent", "esg-agent"]

/-- `agent_id in AGENT_REGISTRY` membership test used by `_send_to_agents`. -/
def registryContains (agentId : String) : Bool :=
  AGENT_REGISTRY_keys.contains agentId

/-- Python `str.lower()` on the content, embedded as a character-wise ASCII
lowercase map (the keyword scan only involves ASCII text). -/
def strLower (s : String) : String := ⟨s.data.map Char.toLower⟩

/-- Contiguous-sublist test on character lists, used to embed the Python
substring operator. -/
def charsContain (needle : List Char) : List Char → Bool
  | [] => needle.isEmpty
  | c :: rest => needle.isPrefixOf (c :: rest) || charsContain needle rest

/-- Python substring test `word in content` on already-lowercased text. -/
def containsWord (content word : String) : Bool :=
  charsContain word.toList content.toList

/-- Keyword set for the credit specialist in `RulesRouterStrategy.route`. -/
def creditKeywords : List String := ["credit", "loan", "score"]

/-- Keyword set for the fraud specialist in `RulesRouterStrategy.route`. -/
def fraudKeywords : List String := ["fraud", "suspicious", "anomaly"]

/-- Keyword set for the ESG specialist in `RulesRouterStrategy.route`. -/
def esgKeywords : List String := ["esg", "environmental", "sustainability"]

/-- The three content checks of the `general` branch of
`RulesRouterStrategy.route`: `any(word in content_lower for word in ...)`
per specialist, appending the matching agent ids in program order. -/
def keywordAgents (contentLower : String) : List String :=
  (if creditKeywords.any (containsWord contentLower) then ["credit-agent"] else []) ++
  (if fraudKeywords.any (containsWord contentLower) then ["fraud-agent"] else []) ++
  (if esgKeywords.any (containsWord contentLower) then ["esg-agent"] else [])

/-- `RulesRouterStrategy.route`: type-based routing for the three specialist
categories, keyword scan of the lowercased content for `general`, default
`["credit-agent"]` when nothing matches, constant confidence 0.75. -/
def rulesRoute (request : AgentRequest) : RoutingDecision :=
  match request.type with
  | RequestType.credit =>
      { request_id := request.id
        selected_agents := ["credit-agent"]
        reasoning := "Credit request routed to credit specialist"
        confidence := 0.75 }
  | RequestType.fraud =>
      { request_id := request.id
        selected_agents := ["fraud-agent"]
        reasoning := "Fraud detection request routed to fraud specialist"
        confidence := 0.75 }
  | RequestType.esg =>
      { request_id := request.id
        selected_agents := ["esg-agent"]
        reasoning := "ESG request routed to ESG specialist"
        confidence := 0.75 }
  | RequestType.general =>
      let contentLower := strLower request.content
      let matched := keywordAgents contentLower
      let selected := if matched = [] then ["credit-agent"] else matched
      { request_id := request.id
        selected_agents := selected
        reasoning := "Content analysis routed to: " ++ String.intercalate ", " selected
        confidence := 0.75 }

/-- Reference definition of the rule-based selection, written from the spec
(§4.2): a direct category match selects exactly the one matching specialist;
a `general` request selects, in registry order, every specialist one of whose
keywords occurs case-insensitively in the content; when no keyword matches,
the single designated default agent (the credit specialist) is selected. -/
def specSelectedAgents (request : AgentRequest) : List String :=
  match request.type with
  | RequestType.credit => ["credit-agent"]
  | RequestType.fraud => ["fraud-agent"]
  | RequestType.esg => ["esg-agent"]
  | RequestType.general =>
      let specialists : List (String × List String) :=
        [("credit-agent", creditKeywords),
         ("fraud-agent", fraudKeywords),
         ("esg-agent", esgKeywords)]
      let hits := (specialists.filter
        (fun p => p.2.any (containsWord (strLower request.content)))).map Prod.fst
      if hits = [] then ["credit-agent"] else hits

/-- Outcome of the `json.loads` / field-extraction step inside the `try`
block of `LLMRouterStrategy.route`: `invalid` when any exception is raised
there (`json.loads` fails, the value is not an object, or a present field
fails validation); `obj` when a JSON object is obtained, carrying the three
fields the code reads, each `none` when absent. -/
inductive ParseOutcome where
  | invalid
  | obj (selected : Option (List String)) (reasoning : Option String)
        (confidence : Option ℚ)
deriving DecidableEq, Repr

/-- Result of the black-box `generate_content` call: either the call raised,
or it returned text whose parse is a `ParseOutcome`. -/
inductive GenResult where
  | raised
  | text (parsed : ParseOutcome)
deriving DecidableEq, Repr

/-- `LLMRouterStrategy.route`: on a usable JSON object, build the decision
with `.get` defaults (`selected_agents` → `[]`, `reasoning` → `""`,
`confidence` → 0.8); on any exception (call raised or output unusable),
fall back to `RulesRouterStrategy().route(request)`. -/
def llmRoute (genResult : GenResult) (request : AgentRequest) : RoutingDecision :=
  match genResult with
  | GenResult.raised => rulesRoute request
  | GenResult.text ParseOutcome.invalid => rulesRoute request
  | GenResult.text (ParseOutcome.obj selected reasoning confidence) =>
      { request_id := request.id
        selected_agents := selected.getD []
        reasoning := reasoning.getD ""
        confidence := confidence.getD 0.8 }

/-- Association list with Python dict semantics, used for `responses` and
`active_requests`. Assignment `d[k] = v` replaces the value in place when the
key is present and appends a new entry otherwise. -/
def dictInsert {α : Type} : List (String × α) → String → α → List (String × α)
  | [], key, v => [(key, v)]
  | (key', v') :: rest, key, v =>
      if key' = key then (key', v) :: rest
      else (key', v') :: dictInsert rest key v

/-- Python dict lookup `d[k]` / `k in d`, as an `Option`. -/
def lookupDict {α : Type} : List (String × α) → String → Option α
  | [], _ => none
  | (key', v) :: rest, key => if key' = key then some v else lookupDict rest key

/-- Key list of an embedded dict. -/
def keysOf {α : Type} (d : List (String × α)) : List String :=
  d.map Prod.fst

/-- Result of one black-box HTTP expert call in `_call_agent`: a timeout, any
other transport/status/body failure (with the exception text), or a JSON
object body whose optional `response` field is carried. -/
inductive CallResult where
  | timeout
  | transportError (msg : String)
  | ok (response : Option String)
deriving DecidableEq, Repr

/-- `RouterOrchestrator._call_agent`: `httpx.TimeoutException` becomes
`Agent {id} timed out`, any other exception becomes `Agent {id} error: {e}`,
and a successful JSON object body yields `.get("response", "")`. -/
def callAgent (agentId : String) (result : CallResult) : Except String String :=
  match result with
  | CallResult.timeout => Except.error ("Agent " ++ agentId ++ " timed out")
  | CallResult.transportError msg =>
      Except.error ("Agent " ++ agentId ++ " error: " ++ msg)
  | CallResult.ok response => Except.ok (response.getD "")

/-- One entry of the `responses` dict built by `_send_to_agents`: the
`AgentResponse(...).dict()` payload on success (timestamps and measured
latency omitted — real time), or the `{"error": ..., "agent_id": ...}` dict
built in the `except` branch. -/
inductive Outcome where
  | success (request_id agent_id response : String)
  | failure (error agent_id : String)
deriving DecidableEq, Repr

/-- The outcome `_send_to_agents` records for one registered agent id, as a
function of that agent's black-box call result. -/
def outcomeFor (request : AgentRequest) (call : String → CallResult)
    (agentId : String) : Outcome :=
  match callAgent agentId (call agentId) with
  | Except.ok response => Outcome.success request.id agentId response
  | Except.error e => Outcome.failure e agentId

/-- The await-and-collect loop of `_send_to_agents`: each (registered)
agent id in turn gets its outcome written into the `responses` dict. -/
def sendLoop (request : AgentRequest) (call : String → CallResult) :
    List String → List (String × Outcome) → List (String × Outcome)
  | [], responses => responses
  | agentId :: rest, responses =>
      sendLoop request call rest
        (dictInsert responses agentId (outcomeFor request call agentId))

/-- `RouterOrchestrator._send_to_agents`: the first loop keeps exactly the
selected ids present in `AGENT_REGISTRY` (in order); the second loop awaits
each call and records a success or failure entry per id. -/
def sendToAgents (request : AgentRequest) (agentIds : List String)
    (call : String → CallResult) : List (String × Outcome) :=
  sendLoop request call (agentIds.filter (fun a => registryContains a)) []

/-- The sequential-latency model of `_send_to_agents`: the selected
coroutines are created un-scheduled and awaited one at a time in a `for`
loop, so the dispatch only returns after the elapsed times of the registered
calls have been paid one after the other — their sum. -/
def dispatchWallTime (agentIds : List String) (elapsedMs : String → ℚ) : ℚ :=
  ((agentIds.filter (fun a => registryContains a)).map elapsedMs).sum

/-- `RouterOrchestrator._broadcast_update`: Python iterates the connection
list by index; a failed `send_text` removes the connection from the list
being iterated (`list.remove`, first occurrence) and the index still
advances. Connections are abstracted to numeric identities and the black box
`sendOk` says which sends succeed. Returns the final connection list and the
identities reached by a successful send, in order. -/
def broadcastLoop (sendOk : Nat → Bool) (conns : List Nat) (i : Nat)
    (delivered : List Nat) : List Nat × List Nat :=
  if h : i < conns.length then
    if sendOk (conns.get ⟨i, h⟩) then
      broadcastLoop sendOk conns (i + 1) (delivered ++ [conns.get ⟨i, h⟩])
    else
      broadcastLoop sendOk (conns.erase (conns.get ⟨i, h⟩)) (i + 1) delivered
  else (conns, delivered)
termination_by conns.length - i
decreasing_by
  · omega
  · have hm : conns.get ⟨i, h⟩ ∈ conns := conns.get_mem i h
    have h2 := List.length_erase_of_mem hm
    omega

/-- The send loop of `_broadcast_update` for one already-serialized message:
only whether each send succeeds matters, not the message text. -/
def broadcastUpdate (sendOk : Nat → Bool) (conns : List Nat) :
    List Nat × List Nat :=
  broadcastLoop sendOk conns 0 []

/-- The `data` payloads `process_request` hands to `_broadcast_update`:
`routing_decision.dict()` for the `routing_decision` event, and
`{"request_id": ..., "responses": responses}` for the `request_completed`
event. -/
inductive BroadcastData where
  | routingDecision
  | requestCompleted (responses : List (String × Outcome))
deriving DecidableEq, Repr

/-- Whether one `responses` entry survives `json.dumps`: a success entry is
`AgentResponse(...).dict()`, which carries the `timestamp: datetime` field
(rejected by stdlib `json.dumps`); a failure entry is the all-string dict
`{"error": ..., "agent_id": ...}`, which serializes fine. -/
def outcomeSerializable : Outcome → Bool
  | Outcome.success _ _ _ => false
  | Outcome.failure _ _ => true

/-- Whether `json.dumps` accepts the broadcast payload:
`routing_decision.dict()` always contains the `timestamp: datetime` field
(`Field(default_factory=datetime.now)`), which stdlib `json.dumps` rejects
with `TypeError`; the completion payload is rejected exactly when some
response entry carries a datetime. -/
def dataSerializable : BroadcastData → Bool
  | BroadcastData.routingDecision => false
  | BroadcastData.requestCompleted responses =>
      responses.all (fun p => outcomeSerializable p.2)

/-- The `str(e)` of the `TypeError` stdlib `json.dumps` raises on a
`datetime` value. -/
def datetimeTypeError : String :=
  "Object of type datetime is not JSON serializable"

/-- `_broadcast_update` in full: `json.dumps(message)` runs before the send
loop and is outside any `try`, so a payload `json.dumps` rejects raises out
of `_broadcast_update` (and of its caller) before any send; only a
serializable payload reaches the send loop. -/
def broadcastEvent (sendOk : Nat → Bool) (conns : List Nat)
    (data : BroadcastData) : Except String (List Nat × List Nat) :=
  if dataSerializable data then Except.ok (broadcastUpdate sendOk conns)
  else Except.error datetimeTypeError

/-- One `active_requests` ledger entry as built by `process_request`. -/
structure RequestRecord where
  request : AgentRequest
  routing : RoutingDecision
  responses : List (String × Outcome)
  status : String
deriving DecidableEq, Repr

/-- The field mutations
`active_requests[id]["responses"] = responses; ...["status"] = "completed"`
applied to the embedded ledger dict. -/
def ledgerComplete : List (String × RequestRecord) → String →
    List (String × Outcome) → List (String × RequestRecord)
  | [], _, _ => []
  | (k, rec) :: rest, rid, responses =>
      if k = rid then
        (k, { rec with responses := responses, status := "completed" }) ::
          ledgerComplete rest rid responses
      else (k, rec) :: ledgerComplete rest rid responses

/-- The strategy configured at startup (`ROUTER_STRATEGY`): `llm` or the
rules fallback. -/
inductive Strategy where
  | llm
  | rules
deriving DecidableEq, Repr

/-- `self.strategy.route(request)` under the configured strategy; the
black-box generative result is threaded in for the `llm` case. -/
def strategyRoute (strategy : Strategy) (genResult : GenResult)
    (request : AgentRequest) : RoutingDecision :=
  match strategy with
  | Strategy.llm => llmRoute genResult request
  | Strategy.rules => rulesRoute request

/-- The aggregate returned to the caller by `process_request`. -/
structure ProcessResult where
  request_id : String
  routing : RoutingDecision
  responses : List (String × Outcome)
deriving DecidableEq, Repr

/-- `RouterOrchestrator.process_request`: route, store the `processing`
ledger entry, broadcast the decision, dispatch, mutate the entry to
`completed` with the responses, broadcast completion, return the aggregate.
An exception raised by a broadcast's `json.dumps` propagates out of
`process_request` uncaught, but the `self.active_requests` mutations made
before it persist, so the result is the new ledger, the connection list, and
either the aggregate or the propagated error. `sendOk1`/`sendOk2` are the
black-box send successes of the two broadcasts. -/
def processRequest (strategy : Strategy) (genResult : GenResult)
    (call : String → CallResult) (sendOk1 sendOk2 : Nat → Bool)
    (ledger : List (String × RequestRecord)) (conns : List Nat)
    (request : AgentRequest) :
    List (String × RequestRecord) × List Nat × Except String ProcessResult :=
  let routing := strategyRoute strategy genResult request
  let ledger1 := dictInsert ledger request.id
    { request := request, routing := routing, responses := [], status := "processing" }
  match broadcastEvent sendOk1 conns BroadcastData.routingDecision with
  | Except.error e => (ledger1, conns, Except.error e)
  | Except.ok (conns1, _) =>
      let responses := sendToAgents request routing.selected_agents call
      let ledger2 := ledgerComplete ledger1 request.id responses
      match broadcastEvent sendOk2 conns1
          (BroadcastData.requestCompleted responses) with
      | Except.error e => (ledger2, conns1, Except.error e)
      | Except.ok (conns2, _) =>
          (ledger2, conns2, Except.ok
            { request_id := request.id, routing := routing,
              responses := responses })

/-- `route_request` endpoint: returns `process_request`'s aggregate, or
catches any exception and answers `HTTPException(status_code=500,
detail=str(e))`. -/
def routeRequest (strategy : Strategy) (genResult : GenResult)
    (call : String → CallResult) (sendOk1 sendOk2 : Nat → Bool)
    (ledger : List (String × RequestRecord)) (conns : List Nat)
    (request : AgentRequest) : Except (Nat × String) ProcessResult :=
  match (processRequest strategy genResult call sendOk1 sendOk2 ledger conns
      request).2.2 with
  | Except.ok result => Except.ok result
  | Except.error e => Except.error (500, e)

/-- `get_request_status`: the status-lookup endpoint returns the ledger
entry when present (`none` embeds the 404 path). -/
def getRequestStatus (ledger : List (String × RequestRecord)) (rid : String) :
    Option RequestRecord :=
  lookupDict ledger rid

/-! ### Lemmas about the embedded dict operations -/

@[simp] theorem keysOf_nil {α : Type} : keysOf ([] : List (String × α)) = [] :=
  rfl

@[simp] theorem keysOf_cons {α : Type} (p : String × α) (rest : List (String × α)) :
    keysOf (p :: rest) = p.1 :: keysOf rest :=
  rfl

theorem lookupDict_dictInsert_self {α : Type} (m : List (String × α))
    (k : String) (v : α) : lookupDict (dictInsert m k v) k = some v := by
  induction m with
  | nil => simp [dictInsert, lookupDict]
  | cons p rest ih =>
      by_cases hk : p.1 = k
      · simp [dictInsert, hk, lookupDict]
      · simpa [dictInsert, hk, lookupDict] using ih

theorem lookupDict_dictInsert_ne {α : Type} (m : List (String × α))
    (k k' : String) (v : α) (h : k' ≠ k) :
    lookupDict (dictInsert m k v) k' = lookupDict m k' := by
  have hk2 : ¬ k = k' := fun h2 => h h2.symm
  induction m with
  | nil => simp [dictInsert, lookupDict, hk2]
  | cons p rest ih =>
      by_cases hk : p.1 = k
      · subst hk
        simp [dictInsert, lookupDict, hk2]
      · simp only [dictInsert, hk, if_false, lookupDict, ih]

theorem keysOf_dictInsert {α : Type} (m : List (String × α)) (k : String)
    (v : α) :
    keysOf (dictInsert m k v) =
      if k ∈ keysOf m then keysOf m else keysOf m ++ [k] := by
  induction m with
  | nil => simp [dictInsert]
  | cons p rest ih =>
      by_cases hk : p.1 = k
      · simp [dictInsert, hk]
      · have hk2 : ¬ k = p.1 := fun h2 => hk h2.symm
        simp only [dictInsert, hk, if_false, keysOf_cons, ih, List.mem_cons,
          hk2, false_or]
        by_cases hmem : k ∈ keysOf rest <;> simp [hmem]

theorem keysOf_dictInsert_nodup {α : Type} (m : List (String × α)) (k : String)
    (v : α) (h : (keysOf m).Nodup) : (keysOf (dictInsert m k v)).Nodup := by
  rw [keysOf_dictInsert]
  by_cases hmem : k ∈ keysOf m
  · simpa [hmem] using h
  · simp only [hmem, if_false]
    simpa [List.nodup_append] using ⟨h, hmem⟩

/-! ### Lemmas about the dispatch loop -/

theorem lookupDict_sendLoop (request : AgentRequest) (call : String → CallResult)
    (ids : List String) (m : List (String × Outcome)) (k : String) :
    lookupDict (sendLoop request call ids m) k =
      if k ∈ ids then some (outcomeFor request call k) else lookupDict m k := by
  induction ids generalizing m with
  | nil => simp [sendLoop]
  | cons a rest ih =>
      rw [sendLoop, ih]
      by_cases hrest : k ∈ rest
      · simp [hrest]
      · by_cases hk : k = a
        · subst hk
          simp [hrest, lookupDict_dictInsert_self]
        · simp [hrest, hk, lookupDict_dictInsert_ne _ _ _ _ hk]

theorem mem_keysOf_sendLoop (request : AgentRequest) (call : String → CallResult)
    (ids : List String) (m : List (String × Outcome)) (k : String) :
    k ∈ keysOf (sendLoop request call ids m) ↔ k ∈ ids ∨ k ∈ keysOf m := by
  induction ids generalizing m with
  | nil => simp [sendLoop]
  | cons a rest ih =>
      rw [sendLoop, ih, keysOf_dictInsert]
      by_cases hmem : a ∈ keysOf m
      · simp only [hmem, if_true, List.mem_cons]
        constructor
        · rintro (h | h)
          · exact Or.inl (Or.inr h)
          · exact Or.inr h
        · rintro ((rfl | h) | h)
          · exact Or.inr hmem
          · exact Or.inl h
          · exact Or.inr h
      · simp only [hmem, if_false, List.mem_cons, List.mem_append,
          List.mem_singleton]
        tauto

theorem keysOf_sendLoop_nodup (request : AgentRequest)
    (call : String → CallResult) (ids : List String) :
    ∀ m : List (String × Outcome), (keysOf m).Nodup →
      (keysOf (sendLoop request call ids m)).Nodup := by
  induction ids with
  | nil =>
      intro m h
      simpa [sendLoop] using h
  | cons a rest ih =>
      intro m h
      rw [sendLoop]
      exact ih _ (keysOf_dictInsert_nodup _ _ _ h)

theorem keysOf_sendLoop_of_nodup (request : AgentRequest)
    (call : String → CallResult) (ids : List String) :
    ∀ m : List (String × Outcome), ids.Nodup → (∀ k ∈ ids, k ∉ keysOf m) →
      keysOf (sendLoop request call ids m) = keysOf m ++ ids := by
  induction ids with
  | nil =>
      intro m _ _
      simp [sendLoop]
  | cons a rest ih =>
      intro m hids hdisj
      rw [sendLoop]
      have ha : a ∉ keysOf m := hdisj a (List.mem_cons_self a rest)
      have hrest : rest.Nodup := (List.nodup_cons.mp hids).2
      have hanotin : a ∉ rest := (List.nodup_cons.mp hids).1
      have hdisj2 : ∀ k ∈ rest,
          k ∉ keysOf (dictInsert m a (outcomeFor request call a)) := by
        intro k hk
        rw [keysOf_dictInsert]
        simp only [ha, if_false, List.mem_append, List.mem_singleton]
        rintro (h | h)
        · exact hdisj k (List.mem_cons_of_mem a hk) h
        · exact hanotin (h ▸ hk)
      rw [ih _ hrest hdisj2, keysOf_dictInsert]
      simp [ha]

theorem keysOf_sendLoop_congr (request : AgentRequest)
    (call call2 : String → CallResult) (ids : List String) :
    ∀ m m2 : List (String × Outcome), keysOf m = keysOf m2 →
      keysOf (sendLoop request call ids m) =
        keysOf (sendLoop request call2 ids m2) := by
  induction ids with
  | nil =>
      intro m m2 h
      simpa [sendLoop] using h
  | cons a rest ih =>
      intro m m2 h
      rw [sendLoop, sendLoop]
      apply ih
      rw [keysOf_dictInsert, keysOf_dictInsert, h]

/-! ### Claim theorems: routing strategies -/

/-- Claim C1: the rule-based strategy equals its reference definition — for a
credit/fraud/esg request it selects exactly the single matching specialist;
for a general request it selects, in registry order, every specialist with a
case-insensitive keyword hit in the content, defaulting to the single
designated default agent when nothing matches; and the confidence is the
constant 0.75 in every case. -/
theorem rules_route_matches_reference (request : AgentRequest) :
    (rulesRoute request).selected_agents = specSelectedAgents request ∧
    (rulesRoute request).confidence = 0.75 := by
  rcases request with ⟨rid, ty, content⟩
  cases ty
  case credit => exact ⟨rfl, rfl⟩
  case fraud => exact ⟨rfl, rfl⟩
  case esg => exact ⟨rfl, rfl⟩
  case general =>
    refine ⟨?_, rfl⟩
    show (if keywordAgents (strLower content) = [] then ["credit-agent"]
      else keywordAgents (strLower content)) = _
    simp only [specSelectedAgents, keywordAgents]
    cases h1 : creditKeywords.any (containsWord (strLower content)) <;>
      cases h2 : fraudKeywords.any (containsWord (strLower content)) <;>
        cases h3 : esgKeywords.any (containsWord (strLower content)) <;>
          simp [h1, h2, h3, List.filter]

/-- Claim C2: whenever the model-based strategy's generative call raises or
its output fails to parse, the returned decision is exactly the one the
rule-based strategy produces for the same request — a single deterministic
fallback whose result carries no marker of the fallback. -/
theorem llm_route_fallback_matches_rules (request : AgentRequest)
    (genResult : GenResult)
    (h : genResult = GenResult.raised ∨
      genResult = GenResult.text ParseOutcome.invalid) :
    llmRoute genResult request = rulesRoute request := by
  rcases h with h | h <;> subst h <;> rfl

/-- Witness for C2 at a concrete request and a raised generative call. -/
theorem llm_route_fallback_matches_rules_witness :
    llmRoute GenResult.raised
        { id := "r1", type := RequestType.general, content := "check this" } =
      rulesRoute
        { id := "r1", type := RequestType.general, content := "check this" } :=
  llm_route_fallback_matches_rules _ _ (Or.inl rfl)

/-- Claim C8: the rule-based strategy never returns an empty selection, and
the designated default for a keyword-free general request is the credit
specialist. -/
theorem rules_route_nonempty_default (request : AgentRequest) :
    (rulesRoute request).selected_agents ≠ [] ∧
    (request.type = RequestType.general →
      keywordAgents (strLower request.content) = [] →
      (rulesRoute request).selected_agents = ["credit-agent"]) := by
  rcases request with ⟨rid, ty, content⟩
  cases ty
  case credit => exact ⟨by simp [rulesRoute], by intro h; cases h⟩
  case fraud => exact ⟨by simp [rulesRoute], by intro h; cases h⟩
  case esg => exact ⟨by simp [rulesRoute], by intro h; cases h⟩
  case general =>
    constructor
    · show (if keywordAgents (strLower content) = [] then ["credit-agent"]
        else keywordAgents (strLower content)) ≠ []
      by_cases h : keywordAgents (strLower content) = []
      · simp [h]
      · simp [h]
    · intro _ h
      show (if keywordAgents (strLower content) = [] then ["credit-agent"]
        else keywordAgents (strLower content)) = ["credit-agent"]
      simp [h]

/-- Witness for C8: a keyword-free general request gets the default credit
specialist, and the selection of a fraud request is non-empty. -/
theorem rules_route_nonempty_default_witness :
    (rulesRoute ⟨"r1", RequestType.general, "hello world"⟩).selected_agents =
      ["credit-agent"] ∧
    (rulesRoute ⟨"r2", RequestType.fraud, "x"⟩).selected_agents ≠ [] :=
  ⟨(rules_route_nonempty_default _).2 rfl (by decide),
   (rules_route_nonempty_default _).1⟩

/-- Claim C9: when the generative call succeeds and its output is usable
JSON, no fallback occurs: each missing field is replaced by its fixed
default (`selected_agents` → `[]`, `reasoning` → `""`, `confidence` → 0.8),
a response lacking `selected_agents` therefore yields an empty selection and
an empty dispatch mapping, and the default confidence 0.8 exceeds the
fallback constant 0.75 by exactly 1/20. -/
theorem llm_route_parsed_defaults (request : AgentRequest)
    (call : String → CallResult) (selected : Option (List String))
    (reasoning : Option String) (confidence : Option ℚ) :
    llmRoute (GenResult.text (ParseOutcome.obj selected reasoning confidence))
        request =
      { request_id := request.id
        selected_agents := selected.getD []
        reasoning := reasoning.getD ""
        confidence := confidence.getD 0.8 } ∧
    sendToAgents request
        (llmRoute (GenResult.text (ParseOutcome.obj none none none))
          request).selected_agents call = [] ∧
    (llmRoute (GenResult.text (ParseOutcome.obj none none none))
        request).confidence -
      (rulesRoute request).confidence = 1 / 20 := by
  refine ⟨rfl, rfl, ?_⟩
  rcases request with ⟨rid, ty, content⟩
  cases ty <;> norm_num [llmRoute, rulesRoute]

/-! ### Claim theorems: dispatch engine -/

/-- Claim C3: the dispatch mapping's key set is exactly the selected ids
present in the registry — one entry per such id, no duplicates — and ids
absent from the registry are silently skipped, so N distinct ids with one
unregistered id yield N-1 outcomes. -/
theorem dispatch_outcomes_exactly_registered (request : AgentRequest)
    (agentIds : List String) (call : String → CallResult) :
    (∀ k, k ∈ keysOf (sendToAgents request agentIds call) ↔
      (k ∈ agentIds ∧ registryContains k = true)) ∧
    (keysOf (sendToAgents request agentIds call)).Nodup ∧
    (agentIds.Nodup →
      keysOf (sendToAgents request agentIds call) =
        agentIds.filter (fun a => registryContains a)) := by
  refine ⟨?_, ?_, ?_⟩
  · intro k
    unfold sendToAgents
    rw [mem_keysOf_sendLoop]
    simp [List.mem_filter]
  · unfold sendToAgents
    exact keysOf_sendLoop_nodup _ _ _ _ (by simp)
  · intro hnodup
    unfold sendToAgents
    rw [keysOf_sendLoop_of_nodup _ _ _ _ (hnodup.filter _) (by simp)]
    simp

/-- Witness for C3: dispatching three distinct ids of which one is
unregistered yields exactly the two registered keys — two outcomes out of
three selected ids. -/
theorem dispatch_outcomes_exactly_registered_witness :
    keysOf (sendToAgents ⟨"r1", RequestType.general, "x"⟩
        ["credit-agent", "esg-agent", "unknown-agent"]
        (fun _ => CallResult.ok (some "done"))) =
      ["credit-agent", "esg-agent"] ∧
    (keysOf (sendToAgents ⟨"r1", RequestType.general, "x"⟩
        ["credit-agent", "esg-agent", "unknown-agent"]
        (fun _ => CallResult.ok (some "done")))).length = 3 - 1 := by
  have h := (dispatch_outcomes_exactly_registered
      ⟨"r1", RequestType.general, "x"⟩
      ["credit-agent", "esg-agent", "unknown-agent"]
      (fun _ => CallResult.ok (some "done"))).2.2 (by decide)
  rw [h]
  exact ⟨by decide, by decide⟩

/-- Claim C4: a timeout / transport error / malformed body on one expert
call becomes a Failure outcome recorded for that agent id alone: every other
agent id gets the same outcome it would get were that call to succeed, and
the key structure of the dispatch result is unchanged — the dispatch as a
whole never fails. -/
theorem dispatch_failure_isolated (request : AgentRequest)
    (agentIds : List String) (call call2 : String → CallResult)
    (a e : String) (hfail : callAgent a (call a) = Except.error e)
    (hagree : ∀ b, b ≠ a → call2 b = call b) :
    (a ∈ agentIds → registryContains a = true →
      lookupDict (sendToAgents request agentIds call) a =
        some (Outcome.failure e a)) ∧
    (∀ b, b ≠ a →
      lookupDict (sendToAgents request agentIds call) b =
        lookupDict (sendToAgents request agentIds call2) b) ∧
    keysOf (sendToAgents request agentIds call) =
      keysOf (sendToAgents request agentIds call2) := by
  refine ⟨?_, ?_, ?_⟩
  · intro hmem hreg
    unfold sendToAgents
    rw [lookupDict_sendLoop]
    have hin : a ∈ agentIds.filter (fun x => registryContains x) :=
      List.mem_filter.mpr ⟨hmem, hreg⟩
    simp only [hin, if_true]
    unfold outcomeFor
    rw [hfail]
  · intro b hb
    unfold sendToAgents
    rw [lookupDict_sendLoop, lookupDict_sendLoop]
    by_cases hmem : b ∈ agentIds.filter (fun x => registryContains x)
    · simp only [hmem, if_true]
      unfold outcomeFor
      rw [hagree b hb]
    · simp [hmem]
  · unfold sendToAgents
    exact keysOf_sendLoop_congr _ _ _ _ _ _ rfl

/-- Witness for C4: with two registered agents of which the fraud agent
times out, the fraud agent alone gets a timeout Failure entry; the credit
agent's entry and the key structure match the dispatch in which the fraud
call would have succeeded. -/
theorem dispatch_failure_isolated_witness :
    lookupDict (sendToAgents ⟨"r1", RequestType.general, "x"⟩
        ["credit-agent", "fraud-agent"]
        (fun b => if b = "fraud-agent" then CallResult.timeout
          else CallResult.ok (some "ok"))) "fraud-agent" =
      some (Outcome.failure "Agent fraud-agent timed out" "fraud-agent") ∧
    lookupDict (sendToAgents ⟨"r1", RequestType.general, "x"⟩
        ["credit-agent", "fraud-agent"]
        (fun b => if b = "fraud-agent" then CallResult.timeout
          else CallResult.ok (some "ok"))) "credit-agent" =
      lookupDict (sendToAgents ⟨"r1", RequestType.general, "x"⟩
        ["credit-agent", "fraud-agent"]
        (fun b => if b = "fraud-agent" then CallResult.ok (some "fine")
          else CallResult.ok (some "ok"))) "credit-agent" ∧
    keysOf (sendToAgents ⟨"r1", RequestType.general, "x"⟩
        ["credit-agent", "fraud-agent"]
        (fun b => if b = "fraud-agent" then CallResult.timeout
          else CallResult.ok (some "ok"))) =
      keysOf (sendToAgents ⟨"r1", RequestType.general, "x"⟩
        ["credit-agent", "fraud-agent"]
        (fun b => if b = "fraud-agent" then CallResult.ok (some "fine")
          else CallResult.ok (some "ok"))) := by
  have h := dispatch_failure_isolated ⟨"r1", RequestType.general, "x"⟩
    ["credit-agent", "fraud-agent"]
    (fun b => if b = "fraud-agent" then CallResult.timeout
      else CallResult.ok (some "ok"))
    (fun b => if b = "fraud-agent" then CallResult.ok (some "fine")
      else CallResult.ok (some "ok"))
    "fraud-agent" "Agent fraud-agent timed out" rfl
    (fun b hb => by simp [hb])
  exact ⟨h.1 (by decide) rfl, h.2.1 "credit-agent" (by decide), h.2.2⟩

/-! ### Lemmas about the ledger -/

theorem lookupDict_ledgerComplete (ledger : List (String × RequestRecord))
    (rid : String) (responses : List (String × Outcome)) :
    lookupDict (ledgerComplete ledger rid responses) rid =
      (lookupDict ledger rid).map
        (fun rec => { rec with responses := responses, status := "completed" }) := by
  induction ledger with
  | nil => rfl
  | cons p rest ih =>
      rcases p with ⟨k, rec⟩
      by_cases h : k = rid
      · simp [ledgerComplete, lookupDict, h]
      · simp [ledgerComplete, lookupDict, h, ih]

/-! ### Claim theorems: orchestrator -/

/-- Claim C6, refuted on the code: the per-request state machine always has
a terminal failure. Whatever the strategy, the generative result, the expert
calls and the connections, the first broadcast's `json.dumps` raises
`TypeError` on the `datetime` timestamp inside `routing_decision.dict()`,
so `process_request` aborts before dispatch, the ledger entry stays at
status `processing` with no responses, and `route_request` answers the
caller with HTTP 500 — no request ever reaches `completed`. -/
theorem process_request_never_completes (strategy : Strategy)
    (genResult : GenResult) (call : String → CallResult)
    (sendOk1 sendOk2 : Nat → Bool) (ledger : List (String × RequestRecord))
    (conns : List Nat) (request : AgentRequest) :
    (processRequest strategy genResult call sendOk1 sendOk2 ledger conns
        request).2.2 = Except.error datetimeTypeError ∧
    getRequestStatus
        (processRequest strategy genResult call sendOk1 sendOk2 ledger conns
          request).1 request.id =
      some { request := request
             routing := strategyRoute strategy genResult request
             responses := []
             status := "processing" } ∧
    routeRequest strategy genResult call sendOk1 sendOk2 ledger conns
        request = Except.error (500, datetimeTypeError) := by
  refine ⟨rfl, ?_, rfl⟩
  show lookupDict
      (dictInsert ledger request.id
        { request := request
          routing := strategyRoute strategy genResult request
          responses := []
          status := "processing" }) request.id = _
  rw [lookupDict_dictInsert_self]

/-- Counterexample to claim C10 as stated: after two same-id requests are
processed, the stored record is not the later request's completed record
with its dispatch responses — both requests abort at the first broadcast,
so the lookup returns the later request's record still at status
`processing` with empty responses. -/
theorem duplicate_request_id_not_completed :
    getRequestStatus
        (processRequest Strategy.rules GenResult.raised
          (fun _ => CallResult.ok (some "ok")) (fun _ => true) (fun _ => true)
          (processRequest Strategy.rules GenResult.raised
            (fun _ => CallResult.ok (some "ok")) (fun _ => true) (fun _ => true)
            [] [] ⟨"dup", RequestType.credit, "a"⟩).1
          (processRequest Strategy.rules GenResult.raised
            (fun _ => CallResult.ok (some "ok")) (fun _ => true) (fun _ => true)
            [] [] ⟨"dup", RequestType.credit, "a"⟩).2.1
          ⟨"dup", RequestType.esg, "b"⟩).1 "dup" =
      some { request := ⟨"dup", RequestType.esg, "b"⟩
             routing := rulesRoute ⟨"dup", RequestType.esg, "b"⟩
             responses := []
             status := "processing" } := by
  rfl

/-- Claim C10 as amended: processing a second request with the same id as an
earlier one overwrites the earlier ledger entry with no rejection or
collision signal, and the status lookup under the shared id returns that
latest record — the later request's entry — which, every request aborting at
the first broadcast, has status `processing` and empty responses rather than
a completed record. -/
theorem duplicate_request_id_overwrites_entry (s1 s2 : Strategy)
    (g1 g2 : GenResult) (call1 call2 : String → CallResult)
    (o1 o2 o3 o4 : Nat → Bool) (ledger : List (String × RequestRecord))
    (conns : List Nat) (r1 r2 : AgentRequest) (h : r1.id = r2.id) :
    getRequestStatus
        (processRequest s2 g2 call2 o3 o4
          (processRequest s1 g1 call1 o1 o2 ledger conns r1).1
          (processRequest s1 g1 call1 o1 o2 ledger conns r1).2.1 r2).1 r1.id =
      some { request := r2
             routing := strategyRoute s2 g2 r2
             responses := []
             status := "processing" } := by
  rw [h]
  show lookupDict
      (dictInsert (processRequest s1 g1 call1 o1 o2 ledger conns r1).1 r2.id
        { request := r2
          routing := strategyRoute s2 g2 r2
          responses := []
          status := "processing" }) r2.id = _
  rw [lookupDict_dictInsert_self]

/-- Witness for the amended C10 at two concrete requests sharing the id
`dup`: the lookup returns the later (esg) request's record. -/
theorem duplicate_request_id_overwrites_entry_witness :
    getRequestStatus
        (processRequest Strategy.rules GenResult.raised
          (fun _ => CallResult.ok (some "ok")) (fun _ => true) (fun _ => true)
          (processRequest Strategy.rules GenResult.raised
            (fun _ => CallResult.ok (some "ok")) (fun _ => true) (fun _ => true)
            [] [] ⟨"dup", RequestType.credit, "a"⟩).1
          (processRequest Strategy.rules GenResult.raised
            (fun _ => CallResult.ok (some "ok")) (fun _ => true) (fun _ => true)
            [] [] ⟨"dup", RequestType.credit, "a"⟩).2.1
          ⟨"dup", RequestType.esg, "b"⟩).1
        (AgentRequest.id ⟨"dup", RequestType.credit, "a"⟩) =
      some { request := ⟨"dup", RequestType.esg, "b"⟩
             routing := strategyRoute Strategy.rules GenResult.raised
               ⟨"dup", RequestType.esg, "b"⟩
             responses := []
             status := "processing" } :=
  duplicate_request_id_overwrites_entry Strategy.rules Strategy.rules
    GenResult.raised GenResult.raised
    (fun _ => CallResult.ok (some "ok")) (fun _ => CallResult.ok (some "ok"))
    (fun _ => true) (fun _ => true) (fun _ => true) (fun _ => true) [] []
    ⟨"dup", RequestType.credit, "a"⟩ ⟨"dup", RequestType.esg, "b"⟩ rfl

/-! ### Claim theorems: broadcaster and dispatch timing -/

/-- Claim C5, refuted on the code: with two connections of which the first
fails to send, `_broadcast_update` removes the failed connection while
iterating the same list, so the second connection — whose send would have
succeeded — is skipped and receives nothing in that broadcast (the delivered
list is empty, and only connection 1 remains for future broadcasts).
Broadcasting with zero connections is a no-op, as the claim states. -/
theorem broadcast_failure_skips_next_connection (sendOk : Nat → Bool) :
    broadcastUpdate (fun c => decide (c ≠ 0)) [0, 1] = ([1], []) ∧
    broadcastUpdate sendOk [] = ([], []) := by
  constructor
  · rw [broadcastUpdate, broadcastLoop.eq_def]
    norm_num [List.erase]
    rw [broadcastLoop.eq_def]
    norm_num
  · rw [broadcastUpdate, broadcastLoop.eq_def]
    norm_num

/-- Claim C7, refuted on the code: `_send_to_agents` awaits the expert
coroutines one after the other, so a dispatch to two registered agents whose
calls each take 10000 ms only returns after 20000 ms — the sum of the
latencies, not the latency of the slowest concurrent responder. -/
theorem dispatch_wall_time_is_sum_of_latencies :
    dispatchWallTime ["credit-agent", "fraud-agent"] (fun _ => 10000) =
      10000 + 10000 := by
  norm_num [dispatchWallTime, registryContains, AGENT_REGISTRY_keys,
    List.filter]
